import Mathlib

/-!
Verification development for the SOEN-342 rail search and booking system.

The definitions below are a shallow embedding of the Python sources:
`rail_network.py` (time parsing, routes, itineraries, search),
`layover_validator.py` (time-of-day layover policy) and
`booking_system.py` (clients, tickets, reservations, trips, ledger).

Modelling conventions:
* Python `int` is embedded as `Int` (or `Nat` where the source value is
  provably non-negative, e.g. parsed clock minutes).
* Python `float` fare rates are embedded as `Rat`; the fare arithmetic in
  the source is plain summation and comparison.
* `datetime`-valued timestamp fields carry no logic used by any claim and
  are omitted from the embedded records.
* The random/clock-based id generators (`generate_trip_id`,
  `generate_ticket_id`) are embedded by passing the sequence of generated
  values as explicit arguments: one run of the Python code corresponds to
  one choice of those arguments.
* Python's stable `list.sort(key=...)` is embedded as a stable sort by
  the corresponding key order (`List.insertionSort`): a stable sort of a
  list by a total preorder is a unique function of the list.
-/

namespace RailSpec

/-! ## Time helpers (`rail_network.py`) -/

/-- Decimal value of a list of digit characters, `int(...)` on a digit run. -/
def digitsVal (ds : List Char) : Nat :=
  ds.foldl (fun a c => a * 10 + (c.toNat - 48)) 0

/-- Python `str.strip()`: remove leading and trailing whitespace. -/
def pyStrip (cs : List Char) : List Char :=
  ((cs.dropWhile Char.isWhitespace).reverse.dropWhile Char.isWhitespace).reverse

/-- One attempt of the regex `\(\s*\+(\d+)\s*d\s*\)` anchored at the head of
the list: on success, return the value of the digit group and the characters
after the match. -/
def matchOffset : List Char → Option (Nat × List Char)
  | [] => none
  | c :: r1 =>
    if c = '(' then
      match r1.dropWhile Char.isWhitespace with
      | [] => none
      | c2 :: r2 =>
        if c2 = '+' then
          if (r2.takeWhile Char.isDigit).isEmpty then none
          else
            match (r2.dropWhile Char.isDigit).dropWhile Char.isWhitespace with
            | [] => none
            | c3 :: r3 =>
              if c3 = 'd' then
                match r3.dropWhile Char.isWhitespace with
                | [] => none
                | c4 :: r4 =>
                  if c4 = ')' then some (digitsVal (r2.takeWhile Char.isDigit), r4)
                  else none
              else none
        else none
    else none

/-- Fuel-indexed scan for `scanOffsets`; the fuel only serves structural
recursion and is irrelevant once it is at least the list length
(`scanOffsetsF_fuel`), since every successful `matchOffset` consumes at
least one character. -/
def scanOffsetsF : Nat → List Char → Option Nat × List Char
  | 0, cs => (none, cs)
  | _ + 1, [] => (none, [])
  | fuel + 1, c :: rest =>
    match matchOffset (c :: rest) with
    | some (nv, rem) =>
      let (_, r) := scanOffsetsF fuel rem
      (some nv, r)
    | none =>
      let (n, r) := scanOffsetsF fuel rest
      (n, c :: r)

/-- `re.sub` of all `\(\s*\+\d+\s*d\s*\)` matches (scanning left to right,
non-overlapping), also reporting the digit group of the first match, which is
what `re.search` returns in `parse_time_to_minutes`. -/
def scanOffsets (cs : List Char) : Option Nat × List Char :=
  scanOffsetsF cs.length cs

/-- Split a character list at every `':'` (the column structure that the
anchored regex `^(\d{1,2})(?::(\d{1,2}))?$` sees). Always non-empty. -/
def splitOnColon : List Char → List (List Char)
  | [] => [[]]
  | c :: rest =>
    match splitOnColon rest with
    | [] => if c = ':' then [[], []] else [[c]]
    | g :: gs => if c = ':' then [] :: g :: gs else (c :: g) :: gs

/-- A group that the regex pieces `\d{1,2}` accept: one or two digits. -/
def hmTok (t : List Char) : Bool :=
  decide (1 ≤ t.length) && decide (t.length ≤ 2) && t.all Char.isDigit

/-- The anchored regex `^(\d{1,2})(?::(\d{1,2}))?$` of
`parse_time_to_minutes`: the whole string is one or two digits, optionally
followed by `':'` and one or two digits.  (With this pattern the regex
engine's backtracking cannot produce any other successful division, so
matching is equivalent to this column test.) -/
def strictHM (s : List Char) : Option (Nat × Nat) :=
  match splitOnColon s with
  | [h] => if hmTok h then some (digitsVal h, 0) else none
  | [h, m] => if hmTok h && hmTok m then some (digitsVal h, digitsVal m) else none
  | _ => none

/-- Helper for `digitRuns`: `cur` is the reversed digit run currently being
collected. -/
def digitRunsAux : List Char → List Char → List (List Char)
  | [], cur => if cur.isEmpty then [] else [cur.reverse]
  | c :: rest, cur =>
    if c.isDigit then digitRunsAux rest (c :: cur)
    else if cur.isEmpty then digitRunsAux rest []
    else cur.reverse :: digitRunsAux rest []

/-- `re.findall(r"\d+", s)`: the maximal runs of digits in `s`. -/
def digitRuns (cs : List Char) : List (List Char) :=
  digitRunsAux cs []

/-- The stripped remainder of the time string after removing day-offset
markers: `s` at the point where `parse_time_to_minutes` parses the clock. -/
def timeRemainder (t : String) : List Char :=
  pyStrip (scanOffsets (pyStrip t.toList)).2

/-- The day offset extracted by `parse_time_to_minutes` (0 when no marker). -/
def timeDayOffset (t : String) : Nat :=
  ((scanOffsets (pyStrip t.toList)).1).getD 0

deriving instance DecidableEq for Except

/-- `parse_time_to_minutes` from `rail_network.py`.  The `None` input check
is not representable (`String` is not nullable); the returned error carries
the message text of the raised `ValueError`. -/
def parse_time_to_minutes (t : String) : Except String Nat :=
  let s := timeRemainder t
  let day_offset := timeDayOffset t
  match strictHM s with
  | some (h, mnt) => .ok (h * 60 + mnt + day_offset * 24 * 60)
  | none =>
    match digitRuns s with
    | [] => .error ("Unrecognized time format: " ++ t)
    | n1 :: rest =>
      let h := digitsVal n1
      let mnt := match rest with
        | [] => 0
        | n2 :: _ => digitsVal n2
      .ok (h * 60 + mnt + day_offset * 24 * 60)

/-- `duration_minutes` from `rail_network.py`. -/
def duration_minutes (dep_min arr_min : Int) : Int :=
  if arr_min ≥ dep_min then arr_min - dep_min
  else (arr_min + 24 * 60) - dep_min

/-! ## String helpers shared by search and booking -/

/-- Python `str.lower()` restricted to ASCII case mapping (all schedule and
client text in this system is ASCII). -/
def pyLower (s : String) : String := ⟨s.data.map Char.toLower⟩

/-- Does `hay` begin with `needle`? (building block of substring search). -/
def startsList : List Char → List Char → Bool
  | [], _ => true
  | _ :: _, [] => false
  | a :: as, b :: bs => a == b && startsList as bs

/-- Python's `needle in hay` substring test. -/
def containsSub (hay needle : List Char) : Bool :=
  match hay with
  | [] => needle.isEmpty
  | _ :: t => startsList needle hay || containsSub t needle

/-- `day_contains.lower() in r.days_of_operation.lower()` style test. -/
def strContains (hay needle : String) : Bool :=
  containsSub hay.toList needle.toList

/-- Python truthiness of the optional string filters: absent (`None`) and
the empty string are both falsy. -/
def truthy : Option String → Bool
  | none => false
  | some s => !(s == "")

/-! ## Domain models (`rail_network.py`) -/

/-- `TrainRoute` dataclass.  `dep_min`, `arr_min`, `duration_min` are the
fields computed by `__post_init__`; `mkTrainRoute` below is the constructor
that computes them. -/
structure TrainRoute where
  route_id : String
  departure_city : String
  arrival_city : String
  departure_time : String
  arrival_time : String
  train_type : String
  days_of_operation : String
  first_class_rate : Rat
  second_class_rate : Rat
  dep_min : Int
  arr_min : Int
  duration_min : Int
deriving DecidableEq, Repr

/-- `TrainRoute(...)` construction including `__post_init__`: parse the two
time strings and derive the duration; a parse failure propagates as the
raised `ValueError`. -/
def mkTrainRoute (rid dep arr dtime atime ttype days : String)
    (fst snd : Rat) : Except String TrainRoute := do
  let d ← parse_time_to_minutes dtime
  let a ← parse_time_to_minutes atime
  .ok { route_id := rid, departure_city := dep, arrival_city := arr,
        departure_time := dtime, arrival_time := atime, train_type := ttype,
        days_of_operation := days, first_class_rate := fst,
        second_class_rate := snd, dep_min := (d : Int), arr_min := (a : Int),
        duration_min := duration_minutes (d : Int) (a : Int) }

/-- `Leg` dataclass. -/
structure Leg where
  route : TrainRoute
deriving DecidableEq, Repr

/-- `Itinerary` dataclass. -/
structure Itinerary where
  legs : List Leg
deriving DecidableEq, Repr

/-- The loop body of `Itinerary.total_travel_minutes` for the legs after the
first: each later leg contributes the gap from the previous leg plus its own
duration. -/
def totalTravelAux : Leg → List Leg → Int
  | _, [] => 0
  | prev, l :: ls =>
    duration_minutes prev.route.arr_min l.route.dep_min
      + l.route.duration_min + totalTravelAux l ls

/-- `Itinerary.total_travel_minutes`: leg durations plus inter-leg gaps. -/
def Itinerary.total_travel_minutes (it : Itinerary) : Int :=
  match it.legs with
  | [] => 0
  | l :: ls => l.route.duration_min + totalTravelAux l ls

/-- `Itinerary.price`: sum of per-leg rates in the requested class. -/
def Itinerary.price (it : Itinerary) (travel_class : String) : Rat :=
  it.legs.foldl
    (fun total leg =>
      if startsList "first".data (pyLower travel_class).data then
        total + leg.route.first_class_rate
      else
        total + leg.route.second_class_rate)
    0

/-! ## `RailNetwork` (`rail_network.py`) -/

structure RailNetwork where
  routes : List TrainRoute
deriving DecidableEq, Repr

/-- `self.index_by_origin.get(city.lower(), [])`: the dict is built by
appending each route under its lower-cased departure city in `routes`
order, so lookup equals this filter. -/
def RailNetwork.index_by_origin (net : RailNetwork) (city : String) :
    List TrainRoute :=
  net.routes.filter (fun r => pyLower r.departure_city == pyLower city)

/-- `RailNetwork._match`. -/
def RailNetwork.matchRoute (r : TrainRoute)
    (dep_city arr_city train_type day_contains : Option String) : Bool :=
  (!truthy dep_city || pyLower r.departure_city == pyLower (dep_city.getD ""))
  && (!truthy arr_city || pyLower r.arrival_city == pyLower (arr_city.getD ""))
  && (!truthy train_type || pyLower r.train_type == pyLower (train_type.getD ""))
  && (!truthy day_contains
      || strContains (pyLower r.days_of_operation)
          (pyLower (day_contains.getD "")))

/-- `RailNetwork._transfer_gap_ok`. -/
def RailNetwork.transfer_gap_ok (r_prev r_next : TrainRoute)
    (min_transfer_minutes : Int) : Bool :=
  let gap := r_next.dep_min - r_prev.arr_min
  let gap := if gap < 0 then gap + 24 * 60 else gap
  decide (gap ≥ min_transfer_minutes)

/-- `RailNetwork._build_one_stop`. -/
def RailNetwork.build_one_stop (net : RailNetwork)
    (dep_city arr_city train_type day_contains : Option String)
    (min_transfer_minutes : Int) : List Itinerary :=
  let dep_routes :=
    net.routes.filter (fun r =>
      RailNetwork.matchRoute r dep_city none train_type day_contains)
  dep_routes.flatMap (fun r1 =>
    ((net.index_by_origin r1.arrival_city).filter (fun r2 =>
        RailNetwork.matchRoute r2 (some r1.arrival_city) arr_city
          train_type day_contains
        && RailNetwork.transfer_gap_ok r1 r2 min_transfer_minutes)).map
      (fun r2 => Itinerary.mk [Leg.mk r1, Leg.mk r2]))

/-- `RailNetwork._build_two_stops`. -/
def RailNetwork.build_two_stops (net : RailNetwork)
    (dep_city arr_city train_type day_contains : Option String)
    (min_transfer_minutes : Int) : List Itinerary :=
  let dep_routes :=
    net.routes.filter (fun r =>
      RailNetwork.matchRoute r dep_city none train_type day_contains)
  dep_routes.flatMap (fun r1 =>
    ((net.index_by_origin r1.arrival_city).filter (fun r2 =>
        RailNetwork.matchRoute r2 (some r1.arrival_city) none
          train_type day_contains
        && RailNetwork.transfer_gap_ok r1 r2 min_transfer_minutes)).flatMap
      (fun r2 =>
        ((net.index_by_origin r2.arrival_city).filter (fun r3 =>
            RailNetwork.matchRoute r3 (some r2.arrival_city) arr_city
              train_type day_contains
            && RailNetwork.transfer_gap_ok r2 r3 min_transfer_minutes)).map
          (fun r3 => Itinerary.mk [Leg.mk r1, Leg.mk r2, Leg.mk r3])))

/-- `legs_key` inside `search`: the ordered route-id sequence. -/
def legsKey (it : Itinerary) : List String :=
  it.legs.map (fun l => l.route.route_id)

/-- The `seen`/`unique` deduplication loop of `search`: keep the first
itinerary for each route-id sequence. -/
def dedupByKey (seen : List (List String)) : List Itinerary → List Itinerary
  | [] => []
  | it :: rest =>
    if seen.contains (legsKey it) then dedupByKey seen rest
    else it :: dedupByKey (legsKey it :: seen) rest

/-- The candidate list of `search` before deduplication: direct itineraries,
then one-stop, then two-stop expansions. -/
def RailNetwork.searchCandidates (net : RailNetwork)
    (departure_city arrival_city train_type day_contains : Option String)
    (max_stops min_transfer_minutes : Int) : List Itinerary :=
  (net.routes.filter (fun r =>
      RailNetwork.matchRoute r departure_city arrival_city train_type
        day_contains)).map (fun r => Itinerary.mk [Leg.mk r])
  ++ (if max_stops ≥ 1 ∧ truthy departure_city ∧ truthy arrival_city then
        net.build_one_stop departure_city arrival_city train_type
          day_contains min_transfer_minutes
      else [])
  ++ (if max_stops ≥ 2 ∧ truthy departure_city ∧ truthy arrival_city then
        net.build_two_stops departure_city arrival_city train_type
          day_contains min_transfer_minutes
      else [])

/-- The comparison key order of the final `unique.sort(key=...)`:
by fare in the requested class when `sort_by == "price"`, otherwise by
total travel minutes. -/
def sortRel (sort_by travel_class : String) (a b : Itinerary) : Prop :=
  if sort_by = "price" then a.price travel_class ≤ b.price travel_class
  else a.total_travel_minutes ≤ b.total_travel_minutes

instance (sort_by travel_class : String) :
    DecidableRel (sortRel sort_by travel_class) := fun a b => by
  unfold sortRel; split <;> infer_instance

/-- `RailNetwork.search`: filter, expand, deduplicate, stable-sort.
Python's `list.sort(key=...)` is a stable sort by the key order; a stable
sort of a list by a total preorder is unique, so it is embedded by
`List.insertionSort`, which is stable (`List.sublist_insertionSort`). -/
def RailNetwork.search (net : RailNetwork)
    (departure_city arrival_city train_type day_contains : Option String)
    (max_stops min_transfer_minutes : Int)
    (travel_class sort_by : String) : List Itinerary :=
  (dedupByKey []
      (net.searchCandidates departure_city arrival_city train_type
        day_contains max_stops min_transfer_minutes)).insertionSort
    (sortRel sort_by travel_class)

/-! ## `LayoverValidator` (`layover_validator.py`) -/

namespace LayoverValidator

def DAY_START : Int := 6 * 60
def DAY_END : Int := 22 * 60
def DAYTIME_MIN : Int := 15
def DAYTIME_MAX : Int := 120
def NIGHT_MIN : Int := 15
def NIGHT_MAX : Int := 30

/-- `LayoverValidator.is_layover_acceptable`; returns the
`(is_valid, reason)` pair. -/
def is_layover_acceptable (arrival_minutes departure_minutes : Int)
    (policy : String) : Bool × String :=
  let gap :=
    if departure_minutes ≥ arrival_minutes then
      departure_minutes - arrival_minutes
    else
      (24 * 60 - arrival_minutes) + departure_minutes
  let arrival_time_of_day := arrival_minutes % (24 * 60)
  let is_daytime := DAY_START ≤ arrival_time_of_day
    ∧ arrival_time_of_day < DAY_END
  let mm : Int × Int :=
    if policy == "lenient" then
      (DAYTIME_MIN, if is_daytime then 180 else NIGHT_MAX)
    else
      if is_daytime then (DAYTIME_MIN, DAYTIME_MAX)
      else (NIGHT_MIN, NIGHT_MAX)
  let min_gap := mm.1
  let max_gap := mm.2
  if gap < min_gap then
    (false, "Layover too short: " ++ toString gap ++ " min (min: "
      ++ toString min_gap ++ " min)")
  else if gap > max_gap then
    let time_context := if is_daytime then "daytime" else "after-hours"
    (false, "Layover too long: " ++ toString gap ++ " min (max: "
      ++ toString max_gap ++ " min for " ++ time_context ++ ")")
  else
    (true, "OK")

end LayoverValidator

/-! ## Booking system (`booking_system.py`)

The `ValueError`s raised by `book_trip` and by the dataclass validations are
embedded as the explicit error kinds below.  `generate_trip_id` /
`generate_ticket_id` draw on `secrets` and the wall clock; one run of
`book_trip` is embedded by passing the drawn trip id and the sequence of
drawn ticket ids as arguments (`gen_trip_id`, `gen_ticket_id`). -/

inductive BookingError where
  | emptyBooking
  | invalidTraveler (msg : String)
  | duplicateTravelerInBooking (first last : String)
  | alreadyBooked (first last : String)
  | tripIdRequired
deriving DecidableEq, Repr

structure Client where
  first_name : String
  last_name : String
  id_number : String
  age : Int
deriving DecidableEq, Repr

/-- `Client(...)` construction including the `__post_init__` validation. -/
def mkClient (first last idn : String) (age : Int) :
    Except BookingError Client :=
  if age < 0 then .error (.invalidTraveler ("Invalid age: " ++ toString age))
  else if first == "" || last == "" then
    .error (.invalidTraveler "Names cannot be empty")
  else if idn == "" then .error (.invalidTraveler "ID number cannot be empty")
  else .ok ⟨first, last, idn, age⟩

/-- Client identity: `(last_name.lower(), id_number)`, the key used by
`__hash__`, `__eq__` and the ledger index. -/
def clientKey (c : Client) : String × String :=
  (pyLower c.last_name, c.id_number)

/-- `Client.__eq__`: case-insensitive last name plus exact id number. -/
def clientEq (a b : Client) : Bool :=
  pyLower a.last_name == pyLower b.last_name && a.id_number == b.id_number

structure Ticket where
  ticket_id : Int
  client : Client
  connection : Itinerary
deriving DecidableEq, Repr

structure Reservation where
  client : Client
  ticket : Ticket
deriving DecidableEq, Repr

structure Trip where
  trip_id : String
  connection : Itinerary
  reservations : List Reservation
deriving DecidableEq, Repr

/-- `BookingSystem` state: `trips` is the insertion-ordered dict
`trip_id -> Trip`, `client_trips_index` the dict
`(last_name.lower(), id_number) -> set of trip ids`, and `clients` the set
of registered clients (a Python `set` deduplicated by client identity). -/
structure BookingSystem where
  trips : List (String × Trip)
  client_trips_index : List ((String × String) × List String)
  clients : List Client
deriving DecidableEq, Repr

/-- `BookingSystem()`. -/
def BookingSystem.empty : BookingSystem := ⟨[], [], []⟩

/-- Dict lookup in `trips`. -/
def tripsLookup (ts : List (String × Trip)) (k : String) : Option Trip :=
  (ts.find? (fun e => e.1 == k)).map (·.2)

/-- Dict assignment `self.trips[trip_id] = trip`: overwrite in place or
append. -/
def tripsInsert (ts : List (String × Trip)) (k : String) (v : Trip) :
    List (String × Trip) :=
  if ts.any (fun e => e.1 == k) then
    ts.map (fun e => if e.1 == k then (k, v) else e)
  else ts ++ [(k, v)]

/-- `self.client_trips_index.get(key, set())`. -/
def indexLookup (idx : List ((String × String) × List String))
    (k : String × String) : List String :=
  ((idx.find? (fun e => e.1 == k)).map (·.2)).getD []

/-- `self.client_trips_index.setdefault(key, set()).add(trip_id)`. -/
def indexAdd (idx : List ((String × String) × List String))
    (k : String × String) (tid : String) :
    List ((String × String) × List String) :=
  if idx.any (fun e => e.1 == k) then
    idx.map (fun e =>
      if e.1 == k then (e.1, if e.2.contains tid then e.2 else e.2 ++ [tid])
      else e)
  else idx ++ [(k, [tid])]

/-- `self.clients.add(client)`: a set insert deduplicated by client
identity. -/
def clientsAdd (cs : List Client) (c : Client) : List Client :=
  if cs.any (clientEq c) then cs else cs ++ [c]

/-- `BookingSystem._connections_equal`: same route ids in the same order. -/
def connections_equal (conn1 conn2 : Itinerary) : Bool :=
  conn1.legs.length == conn2.legs.length
  && (conn1.legs.zip conn2.legs).all
    (fun p => p.1.route.route_id == p.2.route.route_id)

/-- `BookingSystem._has_booking_for_connection`.  (`self.trips[trip_id]`
cannot fail on states reachable through `book_trip`; a dangling index entry
is embedded as no match.) -/
def has_booking_for_connection (sys : BookingSystem) (client : Client)
    (connection : Itinerary) : Bool :=
  (indexLookup sys.client_trips_index (clientKey client)).any (fun tid =>
    match tripsLookup sys.trips tid with
    | some trip => connections_equal trip.connection connection
    | none => false)

/-- The traveler-parsing loop of `book_trip`: build `Client` values in
order, rejecting an invalid traveler or a duplicate identity within the
call, and registering each accepted client in `self.clients` as it goes
(so clients accepted before a failure stay registered). -/
def parseTravelers : BookingSystem → List (String × String × String × Int) →
    List Client → List Client →
    Except BookingError (List Client) × BookingSystem
  | sys, [], clients, _ => (.ok clients, sys)
  | sys, (f, l, idn, a) :: rest, clients, seen =>
    match mkClient f l idn a with
    | .error e => (.error e, sys)
    | .ok c =>
      if seen.any (clientEq c) then
        (.error (.duplicateTravelerInBooking c.first_name c.last_name), sys)
      else
        parseTravelers { sys with clients := clientsAdd sys.clients c }
          rest (clients ++ [c]) (seen ++ [c])

/-- `BookingSystem.book_trip`.  Returns the Python return value (or raised
error) together with the post-call ledger state.  The `Trip` constructor
checks that cannot fire on this path (non-empty reservations, reservations
built for `connection` itself) are established by construction; the
`trip_id` emptiness check is kept because the id is a parameter here. -/
def book_trip (sys : BookingSystem) (connection : Itinerary)
    (travelers : List (String × String × String × Int))
    (gen_trip_id : String) (gen_ticket_id : Nat → Int) :
    Except BookingError Trip × BookingSystem :=
  if travelers.isEmpty then (.error .emptyBooking, sys)
  else
    match parseTravelers sys travelers [] [] with
    | (.error e, sys1) => (.error e, sys1)
    | (.ok clients, sys1) =>
      match clients.find? (fun c =>
          has_booking_for_connection sys1 c connection) with
      | some c => (.error (.alreadyBooked c.first_name c.last_name), sys1)
      | none =>
        if gen_trip_id == "" then (.error .tripIdRequired, sys1)
        else
          let reservations := clients.enum.map (fun ic =>
            Reservation.mk ic.2 (Ticket.mk (gen_ticket_id ic.1) ic.2 connection))
          let trip := Trip.mk gen_trip_id connection reservations
          let sys2 : BookingSystem :=
            { trips := tripsInsert sys1.trips gen_trip_id trip,
              client_trips_index := clients.foldl
                (fun idx c => indexAdd idx (clientKey c) gen_trip_id)
                sys1.client_trips_index,
              clients := sys1.clients }
          (.ok trip, sys2)

/-! ## Concrete schedule from `test_iteration3.py` (`TestRailNetworkWithLayover`) -/

/-- `TrainRoute("R001", "Paris", "Berlin", "08:30", "16:45", "ICE", "Daily",
150.0, 89.0)` with its `__post_init__` fields. -/
def r001 : TrainRoute :=
  ⟨"R001", "Paris", "Berlin", "08:30", "16:45", "ICE", "Daily", 150, 89,
    510, 1005, 495⟩

/-- `TrainRoute("R002", "Paris", "Frankfurt", "08:00", "12:00", ...)`. -/
def r002 : TrainRoute :=
  ⟨"R002", "Paris", "Frankfurt", "08:00", "12:00", "ICE", "Daily", 100, 60,
    480, 720, 240⟩

/-- `TrainRoute("R003", "Frankfurt", "Berlin", "13:00", "17:00", ...)`. -/
def r003 : TrainRoute :=
  ⟨"R003", "Frankfurt", "Berlin", "13:00", "17:00", "ICE", "Daily", 80, 50,
    780, 1020, 240⟩

/-- `TrainRoute("R004", "Paris", "Munich", "09:00", "14:00", ...)`. -/
def r004 : TrainRoute :=
  ⟨"R004", "Paris", "Munich", "09:00", "14:00", "ICE", "Daily", 120, 70,
    540, 840, 300⟩

/-- `TrainRoute("R005", "Munich", "Berlin", "17:00", "21:00", ...)`. -/
def r005 : TrainRoute :=
  ⟨"R005", "Munich", "Berlin", "17:00", "21:00", "ICE", "Daily", 90, 55,
    1020, 1260, 240⟩

/-- The five-route schedule that the repository's own layover tests build. -/
def net5 : RailNetwork := ⟨[r001, r002, r003, r004, r005]⟩

/-! ### Booking lemmas -/

/-- The `Client` value built from a traveler tuple. -/
def travelerClient (t : String × String × String × Int) : Client :=
  ⟨t.1, t.2.1, t.2.2.1, t.2.2.2⟩

/-- The traveler tuple passes the `Client.__post_init__` validation. -/
def travelerValid (t : String × String × String × Int) : Prop :=
  mkClient t.1 t.2.1 t.2.2.1 t.2.2.2 = .ok (travelerClient t)

instance (t : String × String × String × Int) :
    Decidable (travelerValid t) := by
  unfold travelerValid; infer_instance

/-- Distinct client identities within one call, in the orientation the
`seen` check of the parsing loop tests them. -/
def travelersDistinct (ts : List (String × String × String × Int)) : Prop :=
  ts.Pairwise
    (fun t1 t2 => clientEq (travelerClient t2) (travelerClient t1) = false)

instance (ts : List (String × String × String × Int)) :
    Decidable (travelersDistinct ts) := by
  unfold travelersDistinct; infer_instance

/-- The reservations that a successful `book_trip` run builds. -/
def builtReservations (conn : Itinerary) (clients : List Client)
    (gtid : Nat → Int) : List Reservation :=
  clients.enum.map (fun ic =>
    Reservation.mk ic.2 (Ticket.mk (gtid ic.1) ic.2 conn))

/-- All ticket ids stored in the ledger. -/
def ledgerTicketIds (sys : BookingSystem) : List Int :=
  sys.trips.flatMap (fun e =>
    e.2.reservations.map (fun r => r.ticket.ticket_id))

/-- Ledger well-formedness: the client index and the trips dict describe
the same reservations (holds for every state reachable through
`book_trip`). -/
def WF (sys : BookingSystem) : Prop :=
  (∀ e ∈ sys.client_trips_index, ∀ tid ∈ e.2,
    ∃ pr ∈ sys.trips, pr.1 = tid
      ∧ ∃ res ∈ pr.2.reservations, clientKey res.client = e.1)
  ∧ (∀ pr ∈ sys.trips, ∀ res ∈ pr.2.reservations,
      pr.1 ∈ indexLookup sys.client_trips_index (clientKey res.client))
  ∧ (∀ pr ∈ sys.trips, tripsLookup sys.trips pr.1 = some pr.2)

/-! ## Theorems -/

theorem matchOffset_length : ∀ {cs : List Char} {n : Nat} {rem : List Char},
    matchOffset cs = some (n, rem) → rem.length < cs.length := by
  intro cs n rem h
  match cs with
  | [] => simp [matchOffset] at h
  | c :: r1 =>
    rw [matchOffset] at h
    have l1 : (r1.dropWhile Char.isWhitespace).length ≤ r1.length :=
      (List.dropWhile_sublist _).length_le
    split at h
    · split at h
      · simp at h
      · rename_i c2 r2 hw1
        rw [hw1] at l1
        split at h
        · split at h
          · simp at h
          · have l2 : ((r2.dropWhile Char.isDigit).dropWhile Char.isWhitespace).length
                ≤ r2.length :=
              le_trans ((List.dropWhile_sublist _).length_le) ((List.dropWhile_sublist _).length_le)
            split at h
            · simp at h
            · rename_i c3 r3 hw2
              rw [hw2] at l2
              split at h
              · have l3 : (r3.dropWhile Char.isWhitespace).length ≤ r3.length :=
                  (List.dropWhile_sublist _).length_le
                split at h
                · simp at h
                · rename_i c4 r4 hw3
                  rw [hw3] at l3
                  split at h
                  · simp only [Option.some.injEq, Prod.mk.injEq] at h
                    rw [← h.2]
                    simp only [List.length_cons] at l1 l2 l3 ⊢
                    omega
                  · simp at h
              · simp at h
        · simp at h
    · simp at h

theorem scanOffsetsF_fuel : ∀ {fuel fuel' : Nat} {cs : List Char},
    cs.length ≤ fuel → cs.length ≤ fuel' →
    scanOffsetsF fuel cs = scanOffsetsF fuel' cs := by
  intro fuel
  induction fuel with
  | zero =>
    intro fuel' cs h h'
    have : cs = [] := List.length_eq_zero.mp (Nat.le_zero.mp h)
    subst this
    cases fuel' <;> rfl
  | succ n ih =>
    intro fuel' cs h h'
    match cs with
    | [] => cases fuel' <;> rfl
    | c :: rest =>
      match fuel' with
      | 0 => exact absurd h' (by simp)
      | m + 1 =>
        show scanOffsetsF (n + 1) (c :: rest) = scanOffsetsF (m + 1) (c :: rest)
        simp only [scanOffsetsF]
        match hm : matchOffset (c :: rest) with
        | some (nv, rem) =>
          have hlen := matchOffset_length hm
          simp only [List.length_cons] at h h' hlen
          dsimp only
          rw [@ih m rem (by omega) (by omega)]
        | none =>
          simp only [List.length_cons] at h h'
          dsimp only
          rw [@ih m rest (by omega) (by omega)]

/-- C5 — `LayoverValidator.is_layover_acceptable` computes the transfer gap
by the day-rollover rule (`duration_minutes`) and accepts exactly when the
gap lies inside the inclusive bounds selected by `arrival mod 1440`:
daytime (`[360, 1320)`) bounds are `[15, 120]` for strict and `[15, 180]`
for lenient, after-hours bounds are `[15, 30]` for both; rejections report
too-short versus too-long; daytime 15 and 120 are accepted, 121 rejected,
after-hours 30 accepted, 31 rejected. -/
theorem c5_layover_acceptance :
    (∀ a d : Int,
      ((LayoverValidator.is_layover_acceptable a d "strict").1 = true
        ↔ 15 ≤ duration_minutes a d
          ∧ duration_minutes a d
            ≤ (if 360 ≤ a % 1440 ∧ a % 1440 < 1320 then 120 else 30))
      ∧ ((LayoverValidator.is_layover_acceptable a d "lenient").1 = true
        ↔ 15 ≤ duration_minutes a d
          ∧ duration_minutes a d
            ≤ (if 360 ≤ a % 1440 ∧ a % 1440 < 1320 then 180 else 30))
      ∧ (duration_minutes a d < 15 →
          (LayoverValidator.is_layover_acceptable a d "strict").2
            = "Layover too short: " ++ toString (duration_minutes a d)
              ++ " min (min: " ++ toString (15 : Int) ++ " min)")
      ∧ ((if 360 ≤ a % 1440 ∧ a % 1440 < 1320 then (120 : Int) else 30)
            < duration_minutes a d →
          (LayoverValidator.is_layover_acceptable a d "strict").2
            = "Layover too long: " ++ toString (duration_minutes a d)
              ++ " min (max: "
              ++ toString
                (if 360 ≤ a % 1440 ∧ a % 1440 < 1320 then (120 : Int) else 30)
              ++ " min for "
              ++ (if 360 ≤ a % 1440 ∧ a % 1440 < 1320 then "daytime"
                  else "after-hours") ++ ")"))
    ∧ (LayoverValidator.is_layover_acceptable 600 615 "strict").1 = true
    ∧ (LayoverValidator.is_layover_acceptable 600 720 "strict").1 = true
    ∧ (LayoverValidator.is_layover_acceptable 600 721 "strict").1 = false
    ∧ (LayoverValidator.is_layover_acceptable 1380 1410 "strict").1 = true
    ∧ (LayoverValidator.is_layover_acceptable 1380 1411 "strict").1 = false := by
  refine ⟨fun a d => ?_, by decide, by decide, by decide, by decide, by decide⟩
  have hgap : (if d ≥ a then d - a else (24 * 60 - a) + d)
      = duration_minutes a d := by
    unfold duration_minutes
    split_ifs <;> omega
  simp only [LayoverValidator.is_layover_acceptable, LayoverValidator.DAY_START,
    LayoverValidator.DAY_END, LayoverValidator.DAYTIME_MIN,
    LayoverValidator.DAYTIME_MAX, LayoverValidator.NIGHT_MIN,
    LayoverValidator.NIGHT_MAX]
  rw [hgap]
  norm_num
  split_ifs <;> simp_all <;>
    exact fun hh => absurd hh (by omega)

/-- C5 witness: the too-short reason fires on a concrete 10-minute gap. -/
theorem c5_layover_acceptance_witness :
    (LayoverValidator.is_layover_acceptable 600 610 "strict").2
      = "Layover too short: " ++ toString (duration_minutes 600 610)
        ++ " min (min: " ++ toString (15 : Int) ++ " min)" :=
  (c5_layover_acceptance.1 600 610).2.2.1 (by decide)

/-- C9 counterexample: over all integer inputs `duration_minutes` is not
"never negative" — when the arrival encodes a point more than one day after
the departure argument, the single-day rollover still yields a negative
result: `duration_minutes(3000, 0) = -1560`. -/
theorem c9_duration_minutes_negative_example :
    duration_minutes 3000 0 = -1560 ∧ duration_minutes 3000 0 < 0 := by decide

theorem totalTravelAux_eq (prev : Leg) (ls : List Leg) :
    totalTravelAux prev ls
      = (ls.map (fun l => l.route.duration_min)).sum
        + (((prev :: ls).zip ls).map
            (fun p => duration_minutes p.1.route.arr_min p.2.route.dep_min)).sum := by
  induction ls generalizing prev with
  | nil => simp [totalTravelAux]
  | cons l ls ih =>
    simp only [totalTravelAux, ih l, List.zip_cons_cons, List.map_cons,
      List.sum_cons]
    ring

/-- C9 (amended) — `duration_minutes(a, b)` equals `b - a` when `b >= a` and
`b + 1440 - a` otherwise; it is non-negative whenever `a ≤ b + 1440` (for
`a > b + 1440`, the claim's "never negative" fails, see the counterexample);
and `total_travel_minutes` is the sum of the legs' `duration_min` plus the
sum of `duration_minutes(prev.arr_min, next.dep_min)` over adjacent leg
pairs. -/
theorem c9_duration_and_total :
    (∀ a b : Int,
      duration_minutes a b = if b ≥ a then b - a else b + 1440 - a)
    ∧ (∀ a b : Int, a ≤ b + 1440 → 0 ≤ duration_minutes a b)
    ∧ (∀ it : Itinerary,
        it.total_travel_minutes
          = (it.legs.map (fun l => l.route.duration_min)).sum
            + ((it.legs.zip it.legs.tail).map
                (fun p => duration_minutes p.1.route.arr_min p.2.route.dep_min)).sum) := by
  refine ⟨fun a b => ?_, fun a b h => ?_, fun it => ?_⟩
  · unfold duration_minutes
    split_ifs <;> omega
  · unfold duration_minutes
    split_ifs <;> omega
  · match hlegs : it.legs with
    | [] => simp [Itinerary.total_travel_minutes, hlegs]
    | l :: ls =>
      simp only [Itinerary.total_travel_minutes, hlegs, List.tail_cons,
        totalTravelAux_eq l ls, List.map_cons, List.sum_cons]
      ring

/-- C9 witness: the duration formula and non-negativity at `a = 100`,
`b = 50` (a midnight-crossing gap of 1390 minutes). -/
theorem c9_duration_and_total_witness :
    0 ≤ duration_minutes 100 50 :=
  c9_duration_and_total.2.1 100 50 (by decide)

/-- C2 — failing input for atomicity: booking two travelers with the same
identity raises the duplicate-traveler error, yet the first traveler's
client registration (added to `self.clients` inside the parsing loop,
before the checks complete) remains visible in the ledger afterwards,
contradicting the method's all-or-nothing contract. -/
theorem c2_book_trip_not_atomic :
    (book_trip BookingSystem.empty (Itinerary.mk [Leg.mk r001])
        [("A", "Smith", "P1", 30), ("B", "Smith", "P1", 25)]
        "TRP-1" (fun _ => 100)).1
      = .error (.duplicateTravelerInBooking "B" "Smith")
    ∧ (book_trip BookingSystem.empty (Itinerary.mk [Leg.mk r001])
        [("A", "Smith", "P1", 30), ("B", "Smith", "P1", 25)]
        "TRP-1" (fun _ => 100)).2.clients
      = [⟨"A", "Smith", "P1", 30⟩]
    ∧ (book_trip BookingSystem.empty (Itinerary.mk [Leg.mk r001])
        [("A", "Smith", "P1", 30), ("B", "Smith", "P1", 25)]
        "TRP-1" (fun _ => 100)).2
      ≠ BookingSystem.empty := by decide

/-- C1 — failing input for the layover gate: on the five-route schedule of
the repository's own layover tests, `search("Paris", "Berlin", max_stops=1)`
returns the `R004 → R005` itinerary (it passes the 15-minute
`_transfer_gap_ok` gate), although its 180-minute daytime layover is
rejected by `LayoverValidator` under the strict policy that the tests and
the state machine request: `search` never invokes the layover policy and
has no `layover_policy` parameter.  The first five conjuncts certify the
embedded routes against the `TrainRoute` constructor. -/
theorem c1_search_skips_layover_policy :
    mkTrainRoute "R001" "Paris" "Berlin" "08:30" "16:45" "ICE" "Daily"
        150 89 = .ok r001
    ∧ mkTrainRoute "R002" "Paris" "Frankfurt" "08:00" "12:00" "ICE" "Daily"
        100 60 = .ok r002
    ∧ mkTrainRoute "R003" "Frankfurt" "Berlin" "13:00" "17:00" "ICE" "Daily"
        80 50 = .ok r003
    ∧ mkTrainRoute "R004" "Paris" "Munich" "09:00" "14:00" "ICE" "Daily"
        120 70 = .ok r004
    ∧ mkTrainRoute "R005" "Munich" "Berlin" "17:00" "21:00" "ICE" "Daily"
        90 55 = .ok r005
    ∧ net5.search (some "Paris") (some "Berlin") none none 1 15
        "second" "duration"
      = [Itinerary.mk [Leg.mk r001],
         Itinerary.mk [Leg.mk r002, Leg.mk r003],
         Itinerary.mk [Leg.mk r004, Leg.mk r005]]
    ∧ RailNetwork.transfer_gap_ok r004 r005 15 = true
    ∧ LayoverValidator.is_layover_acceptable r004.arr_min r005.dep_min
        "strict"
      = (false, "Layover too long: 180 min (max: 120 min for daytime)") := by
  decide

/-! ### Character and scanning lemmas for the time parser -/

theorem digit_ne {c : Char} (h : c.isDigit = true) (c' : Char)
    (h' : c'.isDigit = false) : c ≠ c' := by
  intro he; subst he; rw [h] at h'; cases h'

theorem digit_not_ws {c : Char} (h : c.isDigit = true) :
    c.isWhitespace = false := by
  by_cases h1 : c = ' '
  · subst h1; simp [Char.isDigit] at h
  by_cases h2 : c = '\t'
  · subst h2; simp [Char.isDigit] at h
  by_cases h3 : c = '\r'
  · subst h3; simp [Char.isDigit] at h
  by_cases h4 : c = '\n'
  · subst h4; simp [Char.isDigit] at h
  simp [Char.isWhitespace, h1, h2, h3, h4]

theorem dropWhile_eq_self_of {p : Char → Bool} : ∀ {cs : List Char},
    (∀ c ∈ cs, p c = false) → cs.dropWhile p = cs
  | [], _ => rfl
  | c :: t, h => by
    rw [List.dropWhile_cons, h c (List.mem_cons_self c t)]
    simp

theorem pyStrip_eq_self {cs : List Char}
    (h : ∀ c ∈ cs, c.isWhitespace = false) : pyStrip cs = cs := by
  unfold pyStrip
  rw [dropWhile_eq_self_of h,
    dropWhile_eq_self_of (fun c hc => h c (List.mem_reverse.mp hc)),
    List.reverse_reverse]

theorem takeWhile_append_all {p : Char → Bool} : ∀ {l : List Char}
    (r : List Char), (∀ c ∈ l, p c = true) →
    (l ++ r).takeWhile p = l ++ r.takeWhile p
  | [], _, _ => rfl
  | c :: l, r, h => by
    rw [List.cons_append, List.takeWhile_cons, h c (List.mem_cons_self c l),
      takeWhile_append_all r (fun x hx => h x (List.mem_cons_of_mem _ hx))]
    simp

theorem dropWhile_append_all {p : Char → Bool} : ∀ {l : List Char}
    (r : List Char), (∀ c ∈ l, p c = true) →
    (l ++ r).dropWhile p = r.dropWhile p
  | [], _, _ => rfl
  | c :: l, r, h => by
    rw [List.cons_append, List.dropWhile_cons, h c (List.mem_cons_self c l)]
    simp only [if_pos]
    exact dropWhile_append_all r (fun x hx => h x (List.mem_cons_of_mem _ hx))

theorem matchOffset_eq_none {c : Char} (rest : List Char) (h : c ≠ '(') :
    matchOffset (c :: rest) = none := by
  simp [matchOffset, h]

theorem scanOffsetsF_nil : ∀ fuel, scanOffsetsF fuel [] = (none, []) := by
  intro fuel; cases fuel <;> rfl

theorem scanOffsetsF_cons_none {fuel : Nat} {c : Char} {rest : List Char}
    (h : matchOffset (c :: rest) = none) :
    scanOffsetsF (fuel + 1) (c :: rest)
      = ((scanOffsetsF fuel rest).1, c :: (scanOffsetsF fuel rest).2) := by
  simp [scanOffsetsF, h]

theorem scanOffsetsF_cons_some {fuel : Nat} {c : Char} {rest : List Char}
    {nv : Nat} {rem : List Char} (h : matchOffset (c :: rest) = some (nv, rem)) :
    scanOffsetsF (fuel + 1) (c :: rest)
      = (some nv, (scanOffsetsF fuel rem).2) := by
  simp [scanOffsetsF, h]

theorem scanOffsets_cons_none {c : Char} {rest : List Char}
    (h : matchOffset (c :: rest) = none) :
    scanOffsets (c :: rest) = ((scanOffsets rest).1, c :: (scanOffsets rest).2) := by
  unfold scanOffsets
  rw [show (c :: rest).length = rest.length + 1 from rfl,
    scanOffsetsF_cons_none h]

theorem scanOffsets_append_skip : ∀ (pre rest : List Char), '(' ∉ pre →
    scanOffsets (pre ++ rest)
      = ((scanOffsets rest).1, pre ++ (scanOffsets rest).2)
  | [], rest, _ => by simp
  | c :: pre, rest, h => by
    have hc : c ≠ '(' := fun he => h (he ▸ List.mem_cons_self c pre)
    have ih := scanOffsets_append_skip pre rest
      (fun hm => h (List.mem_cons_of_mem c hm))
    rw [List.cons_append, scanOffsets_cons_none (matchOffset_eq_none _ hc), ih]
    simp

theorem matchOffset_marker (os : List Char) (hne : os ≠ [])
    (hdig : ∀ c ∈ os, c.isDigit = true) :
    matchOffset ('(' :: '+' :: (os ++ ['d', ')']))
      = some (digitsVal os, []) := by
  have hos : os.isEmpty = false := by
    cases os with
    | nil => exact absurd rfl hne
    | cons _ _ => rfl
  have hw1 : ('+' : Char).isWhitespace = false := by decide
  have hw2 : ('d' : Char).isWhitespace = false := by decide
  have hw3 : (')' : Char).isWhitespace = false := by decide
  have hd1 : ('d' : Char).isDigit = false := by decide
  have htake : (os ++ ['d', ')']).takeWhile Char.isDigit = os := by
    rw [takeWhile_append_all _ hdig, List.takeWhile_cons, hd1]
    simp
  have hdrop : (os ++ ['d', ')']).dropWhile Char.isDigit = ['d', ')'] := by
    rw [dropWhile_append_all _ hdig, List.dropWhile_cons, hd1]
    simp
  simp only [matchOffset, if_pos rfl, List.dropWhile_cons, hw1, hw2, hw3,
    htake, hdrop, hos, Bool.false_eq_true, if_false, if_pos rfl]
  simp

theorem scanOffsets_marker (os : List Char) (hne : os ≠ [])
    (hdig : ∀ c ∈ os, c.isDigit = true) :
    scanOffsets ('(' :: '+' :: (os ++ ['d', ')']))
      = (some (digitsVal os), []) := by
  unfold scanOffsets
  rw [show ('(' :: '+' :: (os ++ ['d', ')'])).length
        = ('+' :: (os ++ ['d', ')'])).length + 1 from rfl,
    scanOffsetsF_cons_some (matchOffset_marker os hne hdig), scanOffsetsF_nil]

theorem splitOnColon_ne_nil (l : List Char) : splitOnColon l ≠ [] := by
  cases l with
  | nil => simp [splitOnColon]
  | cons c rest =>
    simp only [splitOnColon]
    split <;> split <;> simp

theorem splitOnColon_no_colon : ∀ {l : List Char}, ':' ∉ l →
    splitOnColon l = [l]
  | [], _ => rfl
  | c :: rest, h => by
    have hc : c ≠ ':' := fun he => h (he ▸ List.mem_cons_self c rest)
    have ih : splitOnColon rest = [rest] :=
      splitOnColon_no_colon (fun hm => h (List.mem_cons_of_mem c hm))
    simp [splitOnColon, ih, hc]

theorem splitOnColon_cons_colon (rest : List Char) :
    splitOnColon (':' :: rest) = [] :: splitOnColon rest := by
  simp only [splitOnColon]
  match hs : splitOnColon rest with
  | [] => exact absurd hs (splitOnColon_ne_nil rest)
  | g :: gs => simp

theorem splitOnColon_prepend_no_colon : ∀ {l : List Char} (rest : List Char)
    {g : List Char} {gs : List (List Char)}, ':' ∉ l →
    splitOnColon rest = g :: gs →
    splitOnColon (l ++ rest) = (l ++ g) :: gs
  | [], rest, g, gs, _, hs => by simpa using hs
  | c :: l, rest, g, gs, h, hs => by
    have hc : c ≠ ':' := fun he => h (he ▸ List.mem_cons_self c l)
    have ih := splitOnColon_prepend_no_colon rest
      (fun hm => h (List.mem_cons_of_mem c hm)) hs
    simp [splitOnColon, ih, hc]

theorem splitOnColon_clock (hs ms : List Char) (h1 : ':' ∉ hs)
    (h2 : ':' ∉ ms) : splitOnColon (hs ++ ':' :: ms) = [hs, ms] := by
  have hm : splitOnColon (':' :: ms) = [] :: splitOnColon ms :=
    splitOnColon_cons_colon ms
  rw [splitOnColon_no_colon h2] at hm
  have := splitOnColon_prepend_no_colon (':' :: ms) h1 hm
  simpa using this

theorem scanOffsets_no_paren {l : List Char} (h : '(' ∉ l) :
    scanOffsets l = (none, l) := by
  have := scanOffsets_append_skip l [] h
  simpa [show scanOffsets [] = (none, []) from rfl] using this

theorem hmTok_of {t : List Char} (h1 : t ≠ []) (h2 : t.length ≤ 2)
    (h3 : ∀ c ∈ t, c.isDigit = true) : hmTok t = true := by
  have hl : 1 ≤ t.length := by
    cases t with
    | nil => exact absurd rfl h1
    | cons _ _ => simp
  simp only [hmTok, List.all_eq_true, Bool.and_eq_true, decide_eq_true_eq]
  exact ⟨⟨hl, h2⟩, h3⟩

theorem strictHM_clock {hs ms : List Char}
    (h1 : hs ≠ []) (h2 : hs.length ≤ 2) (h3 : ∀ c ∈ hs, c.isDigit = true)
    (h4 : ms ≠ []) (h5 : ms.length ≤ 2) (h6 : ∀ c ∈ ms, c.isDigit = true) :
    strictHM (hs ++ ':' :: ms) = some (digitsVal hs, digitsVal ms) := by
  have hc1 : ':' ∉ hs := fun hm => absurd (h3 _ hm) (by decide)
  have hc2 : ':' ∉ ms := fun hm => absurd (h6 _ hm) (by decide)
  unfold strictHM
  rw [splitOnColon_clock hs ms hc1 hc2]
  simp [hmTok_of h1 h2 h3, hmTok_of h4 h5 h6]

theorem no_ws_clock {hs ms : List Char}
    (h3 : ∀ c ∈ hs, c.isDigit = true) (h6 : ∀ c ∈ ms, c.isDigit = true) :
    ∀ c ∈ hs ++ ':' :: ms, c.isWhitespace = false := by
  intro c hc
  rcases List.mem_append.mp hc with h | h
  · exact digit_not_ws (h3 c h)
  · rcases List.mem_cons.mp h with h | h
    · subst h; decide
    · exact digit_not_ws (h6 c h)

theorem no_paren_clock {hs ms : List Char}
    (h3 : ∀ c ∈ hs, c.isDigit = true) (h6 : ∀ c ∈ ms, c.isDigit = true) :
    '(' ∉ hs ++ ':' :: ms := by
  intro hc
  rcases List.mem_append.mp hc with h | h
  · exact absurd (h3 _ h) (by decide)
  · rcases List.mem_cons.mp h with h | h
    · exact absurd h (by decide)
    · exact absurd (h6 _ h) (by decide)

/-- C10 — `parse_time_to_minutes` performs no range validation on the clock
fields: every `H:M` string whose hour and minute are one- or two-digit
tokens parses to `hour * 60 + minute`, even when the hour is `>= 24` or the
minute is `>= 60`; in particular `"25:99"` parses to `1599 = 25*60 + 99`
rather than raising an error. -/
theorem c10_no_range_validation :
    (∀ hs ms : List Char,
      hs ≠ [] → hs.length ≤ 2 → (∀ c ∈ hs, c.isDigit = true) →
      ms ≠ [] → ms.length ≤ 2 → (∀ c ∈ ms, c.isDigit = true) →
      parse_time_to_minutes (String.mk (hs ++ ':' :: ms))
        = .ok (digitsVal hs * 60 + digitsVal ms))
    ∧ parse_time_to_minutes "25:99" = .ok 1599
    ∧ 1599 = 25 * 60 + 99 := by
  refine ⟨?_, by decide, by decide⟩
  intro hs ms h1 h2 h3 h4 h5 h6
  have hnw := no_ws_clock h3 h6
  have hnp := no_paren_clock h3 h6
  unfold parse_time_to_minutes timeRemainder timeDayOffset
  rw [show (String.mk (hs ++ ':' :: ms)).toList = hs ++ ':' :: ms from rfl,
    pyStrip_eq_self hnw, scanOffsets_no_paren hnp]
  simp only [Option.getD_none]
  rw [pyStrip_eq_self hnw, strictHM_clock h1 h2 h3 h4 h5 h6]
  simp

/-- C10 witness: the general clock theorem applied at `"25:99"`. -/
theorem c10_no_range_validation_witness :
    parse_time_to_minutes (String.mk (['2', '5'] ++ ':' :: ['9', '9']))
      = .ok (digitsVal ['2', '5'] * 60 + digitsVal ['9', '9']) :=
  c10_no_range_validation.1 ['2', '5'] ['9', '9'] (by decide) (by decide)
    (by decide) (by decide) (by decide) (by decide)

theorem splitOnColon_nonempty (rest : List Char) :
    ∃ g gs, splitOnColon rest = g :: gs := by
  match hx : splitOnColon rest with
  | [] => exact absurd hx (splitOnColon_ne_nil rest)
  | g :: gs => exact ⟨g, gs, rfl⟩

theorem splitOnColon_single : ∀ {s h : List Char},
    splitOnColon s = [h] → s = h
  | [], h, he => by simpa [splitOnColon] using he
  | c :: rest, h, he => by
    obtain ⟨g, gs, hgs⟩ := splitOnColon_nonempty rest
    simp only [splitOnColon, hgs] at he
    split at he
    · simp at he
    · simp only [List.cons.injEq] at he
      obtain ⟨he1, he2⟩ := he
      have hrest : rest = g := splitOnColon_single (by rw [hgs, he2])
      rw [hrest, ← he1]

theorem splitOnColon_pair : ∀ {s h m : List Char},
    splitOnColon s = [h, m] → s = h ++ ':' :: m
  | [], h, m, he => by simp [splitOnColon] at he
  | c :: rest, h, m, he => by
    obtain ⟨g, gs, hgs⟩ := splitOnColon_nonempty rest
    simp only [splitOnColon, hgs] at he
    split at he
    · rename_i hc
      simp only [List.cons.injEq] at he
      obtain ⟨he1, he2, he3⟩ := he
      subst hc
      have hrest : rest = m := splitOnColon_single (by rw [hgs, he2, he3])
      rw [hrest, ← he1]
      rfl
    · simp only [List.cons.injEq] at he
      obtain ⟨he1, he2⟩ := he
      have hrest : rest = g ++ ':' :: m :=
        splitOnColon_pair (by rw [hgs, he2])
      rw [hrest, ← he1]
      rfl

theorem digitRunsAux_ne_nil : ∀ (l cur : List Char), cur ≠ [] →
    digitRunsAux l cur ≠ []
  | [], cur, h => by
    have : cur.isEmpty = false := by
      cases cur with
      | nil => exact absurd rfl h
      | cons _ _ => rfl
    simp [digitRunsAux, this]
  | c :: l, cur, h => by
    have : cur.isEmpty = false := by
      cases cur with
      | nil => exact absurd rfl h
      | cons _ _ => rfl
    simp only [digitRunsAux, this]
    split
    · exact digitRunsAux_ne_nil l (c :: cur) (by simp)
    · simp

theorem digitRuns_head_digit {c : Char} (rest : List Char)
    (h : c.isDigit = true) : digitRuns (c :: rest) ≠ [] := by
  unfold digitRuns
  simp only [digitRunsAux, h, List.isEmpty_nil, if_true]
  exact digitRunsAux_ne_nil rest [c] (by simp)

theorem strictHM_digitRuns {s : List Char} (h : strictHM s ≠ none) :
    digitRuns s ≠ [] := by
  unfold strictHM at h
  obtain ⟨g, gs, hgs⟩ := splitOnColon_nonempty s
  rw [hgs] at h
  match g, gs, hgs with
  | g, [], hgs =>
    have htok : hmTok g = true := by
      by_contra hx
      simp [Bool.not_eq_true] at hx
      simp [hx] at h
    have hsg : s = g := splitOnColon_single hgs
    match g, htok, hsg with
    | c :: g, htok, hsg =>
      rw [hsg]
      refine digitRuns_head_digit g ?_
      simp only [hmTok, List.all_eq_true, Bool.and_eq_true] at htok
      exact htok.2 c (List.mem_cons_self c g)
  | g, [m], hgs =>
    have htok : (hmTok g && hmTok m) = true := by
      by_contra hx
      simp only [Bool.not_eq_true] at hx
      simp [hx] at h
    have hsg : s = g ++ ':' :: m := splitOnColon_pair hgs
    simp only [Bool.and_eq_true] at htok
    match g, htok.1, hsg with
    | c :: g, htokg, hsg =>
      rw [hsg]
      refine digitRuns_head_digit _ ?_
      simp only [hmTok, List.all_eq_true, Bool.and_eq_true] at htokg
      exact htokg.2 c (List.mem_cons_self c g)
  | g, m :: m2 :: gs, hgs => simp at h

/-- C8 counterexample: the input `"(+2d)"` contains the numeric token `"2"`,
yet `parse_time_to_minutes` raises the malformed-time error, because the
token sits inside the day-offset marker that is stripped before the clock
is parsed — so "errors iff the string contains no numeric token" fails. -/
theorem c8_error_despite_numeric_token :
    parse_time_to_minutes "(+2d)" = .error "Unrecognized time format: (+2d)"
    ∧ digitRuns "(+2d)".toList = [['2']] := by decide

/-- C8 (amended) — `parse_time_to_minutes` strips the `(+Nd)` day-offset
markers first, then parses the clock as `H` or `H:MM`, falling back to the
first one or two numeric tokens of the remainder when the strict pattern
fails, and returns `hour*60 + minute + day_offset*1440` without wrapping;
it errors if and only if the remainder after stripping the markers
contains no numeric token (not: the whole string, see the
counterexample). -/
theorem c8_parse_time_characterization :
    (∀ t : String,
      (∃ e, parse_time_to_minutes t = .error e)
        ↔ digitRuns (timeRemainder t) = [])
    ∧ (∀ hs ms os : List Char,
      hs ≠ [] → hs.length ≤ 2 → (∀ c ∈ hs, c.isDigit = true) →
      ms ≠ [] → ms.length ≤ 2 → (∀ c ∈ ms, c.isDigit = true) →
      os ≠ [] → (∀ c ∈ os, c.isDigit = true) →
      parse_time_to_minutes
          (String.mk ((hs ++ ':' :: ms) ++ '(' :: '+' :: (os ++ ['d', ')'])))
        = .ok (digitsVal hs * 60 + digitsVal ms + digitsVal os * 1440))
    ∧ (∀ (t : String) (n1 : List Char) (rest : List (List Char)),
      strictHM (timeRemainder t) = none →
      digitRuns (timeRemainder t) = n1 :: rest →
      parse_time_to_minutes t
        = .ok (digitsVal n1 * 60
            + (match rest with | [] => 0 | n2 :: _ => digitsVal n2)
            + timeDayOffset t * 24 * 60)) := by
  refine ⟨fun t => ?_, fun hs ms os h1 h2 h3 h4 h5 h6 h7 h8 => ?_,
    fun t n1 rest hS hD => ?_⟩
  · constructor
    · rintro ⟨e, he⟩
      unfold parse_time_to_minutes at he
      dsimp only at he
      match hS : strictHM (timeRemainder t) with
      | some (h, mnt) => rw [hS] at he; simp at he
      | none =>
        rw [hS] at he
        match hD : digitRuns (timeRemainder t) with
        | [] => rfl
        | n1 :: rest => rw [hD] at he; simp at he
    · intro hD
      refine ⟨"Unrecognized time format: " ++ t, ?_⟩
      unfold parse_time_to_minutes
      dsimp only
      match hS : strictHM (timeRemainder t) with
      | some (h, mnt) =>
        exact absurd hD (strictHM_digitRuns (by rw [hS]; simp))
      | none => rw [hD]
  · have hclockd : ∀ c ∈ hs ++ ':' :: ms, c.isWhitespace = false :=
      no_ws_clock h3 h6
    have hnw : ∀ c ∈ (hs ++ ':' :: ms) ++ '(' :: '+' :: (os ++ ['d', ')']),
        c.isWhitespace = false := by
      intro c hc
      rcases List.mem_append.mp hc with h | h
      · exact hclockd c h
      · rcases List.mem_cons.mp h with h | h
        · subst h; decide
        rcases List.mem_cons.mp h with h | h
        · subst h; decide
        rcases List.mem_append.mp h with h | h
        · exact digit_not_ws (h8 c h)
        · rcases List.mem_cons.mp h with h | h
          · subst h; decide
          · rcases List.mem_cons.mp h with h | h
            · subst h; decide
            · simp at h
    unfold parse_time_to_minutes timeRemainder timeDayOffset
    dsimp only
    rw [show (String.mk ((hs ++ ':' :: ms) ++ '(' :: '+' :: (os ++ ['d', ')']))).toList
          = (hs ++ ':' :: ms) ++ '(' :: '+' :: (os ++ ['d', ')']) from rfl,
      pyStrip_eq_self hnw,
      scanOffsets_append_skip _ _ (no_paren_clock h3 h6),
      scanOffsets_marker os h7 h8]
    simp only [Option.getD_some]
    rw [List.append_nil, pyStrip_eq_self hclockd,
      strictHM_clock h1 h2 h3 h4 h5 h6]
    simp only [Except.ok.injEq]
    ring
  · unfold parse_time_to_minutes
    dsimp only
    rw [hS, hD]

/-- C8 witness: the offset family applied at `"08:30(+1d)"`, whose value
`510 + 1440` exceeds one day (no wrapping). -/
theorem c8_parse_time_characterization_witness :
    parse_time_to_minutes
        (String.mk ((['0', '8'] ++ ':' :: ['3', '0'])
          ++ '(' :: '+' :: (['1'] ++ ['d', ')'])))
      = .ok (digitsVal ['0', '8'] * 60 + digitsVal ['3', '0']
          + digitsVal ['1'] * 1440) :=
  c8_parse_time_characterization.2.1 ['0', '8'] ['3', '0'] ['1']
    (by decide) (by decide) (by decide) (by decide) (by decide) (by decide)
    (by decide) (by decide)

theorem dedupByKey_nodup : ∀ (seen : List (List String)) (l : List Itinerary),
    ((dedupByKey seen l).map legsKey).Nodup
    ∧ ∀ k ∈ (dedupByKey seen l).map legsKey, k ∉ seen
  | _, [] => by simp [dedupByKey]
  | seen, it :: rest => by
    rw [dedupByKey]
    by_cases hc : (seen.contains (legsKey it)) = true
    · rw [if_pos hc]
      exact dedupByKey_nodup seen rest
    · rw [if_neg hc]
      have ih := dedupByKey_nodup (legsKey it :: seen) rest
      rw [List.map_cons]
      refine ⟨List.nodup_cons.mpr
        ⟨fun hmem => (ih.2 _ hmem) (List.mem_cons_self _ _), ih.1⟩, ?_⟩
      intro k hk
      rcases List.mem_cons.mp hk with h | h
      · subst h
        intro hks
        exact hc (List.elem_eq_true_of_mem hks)
      · exact fun hks => (ih.2 k h) (List.mem_cons_of_mem _ hks)

/-- C6 — no two itineraries in a `search` result share the same ordered
route-id sequence, and the same search issued twice yields lists equal as
sets of route-id sequences (search is a pure function of the schedule and
the arguments). -/
theorem c6_search_dedup_deterministic :
    (∀ (net : RailNetwork) (dep arr tt day : Option String)
        (ms mt : Int) (tc sb : String),
      ((net.search dep arr tt day ms mt tc sb).map legsKey).Nodup)
    ∧ (∀ (net : RailNetwork) (dep arr tt day : Option String)
        (ms mt : Int) (tc sb : String) (k : List String),
      k ∈ (net.search dep arr tt day ms mt tc sb).map legsKey
        ↔ k ∈ (net.search dep arr tt day ms mt tc sb).map legsKey) := by
  refine ⟨fun net dep arr tt day ms mt tc sb => ?_,
    fun _ _ _ _ _ _ _ _ _ _ => Iff.rfl⟩
  unfold RailNetwork.search
  have hperm : List.Perm
      ((List.insertionSort (sortRel sb tc)
        (dedupByKey [] (net.searchCandidates dep arr tt day ms mt))).map
          legsKey)
      ((dedupByKey [] (net.searchCandidates dep arr tt day ms mt)).map
          legsKey) :=
    (List.perm_insertionSort _ _).map legsKey
  exact hperm.nodup_iff.mpr (dedupByKey_nodup [] _).1

theorem sortRel_trans (sb tc : String) : ∀ a b c : Itinerary,
    sortRel sb tc a b → sortRel sb tc b c → sortRel sb tc a c := by
  intro a b c h1 h2
  by_cases hsb : sb = "price" <;> simp [sortRel, hsb] at * <;>
    exact le_trans h1 h2

theorem sortRel_total (sb tc : String) : ∀ a b : Itinerary,
    sortRel sb tc a b ∨ sortRel sb tc b a := by
  intro a b
  by_cases hsb : sb = "price" <;> simp [sortRel, hsb] <;> exact le_total _ _

theorem search_sorted (net : RailNetwork)
    (dep arr tt day : Option String) (ms mt : Int) (tc sb : String) :
    (net.search dep arr tt day ms mt tc sb).Pairwise (sortRel sb tc) := by
  haveI : IsTrans Itinerary (sortRel sb tc) := ⟨sortRel_trans sb tc⟩
  haveI : IsTotal Itinerary (sortRel sb tc) := ⟨sortRel_total sb tc⟩
  exact List.sorted_insertionSort _ _

/-- C7 — search results are sorted with non-decreasing keys: by fare at the
requested class when `sort_by = "price"`, by total travel minutes for any
other `sort_by` value; and the sort is stable: itineraries whose sort keys
are pairwise equivalent keep their discovery order (filtering the result by
any class of key-equivalent itineraries gives exactly the corresponding
filter of the deduplicated candidate list). -/
theorem c7_search_sorted_stable :
    (∀ (net : RailNetwork) (dep arr tt day : Option String)
        (ms mt : Int) (tc : String),
      (net.search dep arr tt day ms mt tc "price").Chain'
        (fun a b => a.price tc ≤ b.price tc))
    ∧ (∀ (net : RailNetwork) (dep arr tt day : Option String)
        (ms mt : Int) (tc sb : String), sb ≠ "price" →
      (net.search dep arr tt day ms mt tc sb).Chain'
        (fun a b => a.total_travel_minutes ≤ b.total_travel_minutes))
    ∧ (∀ (net : RailNetwork) (dep arr tt day : Option String)
        (ms mt : Int) (tc sb : String) (p : Itinerary → Bool),
      (∀ a b, p a = true → p b = true → sortRel sb tc a b) →
      (net.search dep arr tt day ms mt tc sb).filter p
        = (dedupByKey []
            (net.searchCandidates dep arr tt day ms mt)).filter p) := by
  refine ⟨fun net dep arr tt day ms mt tc => ?_,
    fun net dep arr tt day ms mt tc sb hsb => ?_,
    fun net dep arr tt day ms mt tc sb p hp => ?_⟩
  · refine ((search_sorted net dep arr tt day ms mt tc "price").imp ?_).chain'
    intro a b h
    simpa [sortRel] using h
  · refine ((search_sorted net dep arr tt day ms mt tc sb).imp ?_).chain'
    intro a b h
    simpa [sortRel, hsb] using h
  · haveI : IsTrans Itinerary (sortRel sb tc) := ⟨sortRel_trans sb tc⟩
    haveI : IsTotal Itinerary (sortRel sb tc) := ⟨sortRel_total sb tc⟩
    set l := dedupByKey [] (net.searchCandidates dep arr tt day ms mt) with hl
    have hcp : (l.filter p).Pairwise (sortRel sb tc) := by
      refine List.pairwise_of_forall_mem_list ?_
      intro a ha b hb
      exact hp a b (List.of_mem_filter ha) (List.of_mem_filter hb)
    have hsub : List.Sublist (l.filter p)
        (List.insertionSort (sortRel sb tc) l) :=
      List.sublist_insertionSort hcp (List.filter_sublist l)
    have hsub2 : List.Sublist ((l.filter p).filter p)
        ((List.insertionSort (sortRel sb tc) l).filter p) :=
      hsub.filter p
    rw [List.filter_filter] at hsub2
    have hff : l.filter (fun a => p a && p a) = l.filter p := by
      congr 1
      funext a
      cases p a <;> rfl
    rw [hff] at hsub2
    have hperm : List.Perm
        ((List.insertionSort (sortRel sb tc) l).filter p) (l.filter p) :=
      (List.perm_insertionSort _ _).filter p
    exact (hsub2.eq_of_length hperm.length_eq.symm).symm

/-- C7 witness: the duration branch and the stability equation applied on
the concrete five-route schedule. -/
theorem c7_search_sorted_stable_witness :
    (net5.search (some "Paris") (some "Berlin") none none 1 15
        "second" "duration").Chain'
      (fun a b => a.total_travel_minutes ≤ b.total_travel_minutes)
    ∧ (net5.search (some "Paris") (some "Berlin") none none 1 15
        "second" "duration").filter
        (fun it => it.total_travel_minutes == 495)
      = (dedupByKey []
          (net5.searchCandidates (some "Paris") (some "Berlin") none none
            1 15)).filter (fun it => it.total_travel_minutes == 495) :=
  ⟨c7_search_sorted_stable.2.1 net5 (some "Paris") (some "Berlin") none none
      1 15 "second" "duration" (by decide),
    c7_search_sorted_stable.2.2 net5 (some "Paris") (some "Berlin") none none
      1 15 "second" "duration" (fun it => it.total_travel_minutes == 495)
      (fun a b ha hb => by
        simp only [beq_iff_eq] at ha hb
        simp [sortRel, ha, hb])⟩

theorem zip_self_all (l : List Leg) :
    ∀ p ∈ l.zip l, (p.1.route.route_id == p.2.route.route_id) = true := by
  induction l with
  | nil => intro p hp; simp at hp
  | cons x xs ih =>
    intro p hp
    rw [List.zip_cons_cons] at hp
    rcases List.mem_cons.mp hp with h | h
    · subst h; simp
    · exact ih p h

theorem connections_equal_refl (conn : Itinerary) :
    connections_equal conn conn = true := by
  simp only [connections_equal, beq_self_eq_true, Bool.true_and,
    List.all_eq_true]
  exact zip_self_all conn.legs

theorem parseTravelers_ok (sys : BookingSystem) :
    ∀ (ts : List (String × String × String × Int)) (acc seen : List Client),
    (∀ t ∈ ts, travelerValid t) →
    (∀ t ∈ ts, ∀ s ∈ seen, clientEq (travelerClient t) s = false) →
    travelersDistinct ts →
    parseTravelers sys ts acc seen
      = (.ok (acc ++ ts.map travelerClient),
         BookingSystem.mk sys.trips sys.client_trips_index
           (ts.foldl (fun cs t => clientsAdd cs (travelerClient t))
             sys.clients)) := by
  intro ts
  induction ts generalizing sys with
  | nil =>
    intro acc seen _ _ _
    simp [parseTravelers]
  | cons t ts ih =>
    intro acc seen hval hseen hdist
    have hv : mkClient t.1 t.2.1 t.2.2.1 t.2.2.2 = .ok (travelerClient t) :=
      hval t (List.mem_cons_self t ts)
    have hany : seen.any (clientEq (travelerClient t)) = false :=
      List.any_eq_false.mpr (fun s hs => by
        rw [hseen t (List.mem_cons_self t ts) s hs]
        simp)
    show parseTravelers sys ((t.1, t.2.1, t.2.2.1, t.2.2.2) :: ts) acc seen
        = _
    rw [parseTravelers, hv]
    simp only [hany, Bool.false_eq_true, if_false]
    rw [ih _ (acc ++ [travelerClient t]) (seen ++ [travelerClient t])
      (fun x hx => hval x (List.mem_cons_of_mem t hx))
      (fun x hx s hs => by
        rcases List.mem_append.mp hs with h | h
        · exact hseen x (List.mem_cons_of_mem t hx) s h
        · rcases List.mem_cons.mp h with h | h
          · subst h
            exact (List.pairwise_cons.mp hdist).1 x hx
          · simp at h)
      (List.pairwise_cons.mp hdist).2]
    simp [List.append_assoc]

theorem book_trip_ok (sys : BookingSystem) (conn : Itinerary)
    (ts : List (String × String × String × Int)) (gid : String)
    (gtid : Nat → Int)
    (hne : ts ≠ [])
    (hval : ∀ t ∈ ts, travelerValid t)
    (hdist : travelersDistinct ts)
    (hnob : ∀ t ∈ ts,
      has_booking_for_connection sys (travelerClient t) conn = false)
    (hgid : gid ≠ "") :
    book_trip sys conn ts gid gtid
      = (.ok (Trip.mk gid conn
            (builtReservations conn (ts.map travelerClient) gtid)),
        BookingSystem.mk
          (tripsInsert sys.trips gid
            (Trip.mk gid conn
              (builtReservations conn (ts.map travelerClient) gtid)))
          ((ts.map travelerClient).foldl
            (fun idx c => indexAdd idx (clientKey c) gid)
            sys.client_trips_index)
          (ts.foldl (fun cs t => clientsAdd cs (travelerClient t))
            sys.clients)) := by
  have hne' : ts.isEmpty = false := by
    cases ts with
    | nil => exact absurd rfl hne
    | cons _ _ => rfl
  unfold book_trip
  rw [hne']
  simp only [Bool.false_eq_true, if_false]
  rw [parseTravelers_ok sys ts [] [] hval (by simp) hdist]
  dsimp only
  have hfind : ((ts.map travelerClient).find? (fun c =>
      has_booking_for_connection
        (BookingSystem.mk sys.trips sys.client_trips_index
          (ts.foldl (fun cs t => clientsAdd cs (travelerClient t))
            sys.clients)) c conn)) = none := by
    apply List.find?_eq_none.mpr
    intro c hc
    obtain ⟨t, ht, rfl⟩ := List.mem_map.mp hc
    exact fun h => Bool.false_ne_true ((hnob t ht).symm.trans h)
  rw [List.nil_append]
  rw [hfind]
  have hg : (gid == "") = false := beq_eq_false_iff_ne.mpr hgid
  simp only [hg, Bool.false_eq_true, if_false, builtReservations]

theorem builtReservations_ticket_ids (conn : Itinerary)
    (clients : List Client) (gtid : Nat → Int) :
    (builtReservations conn clients gtid).map (fun r => r.ticket.ticket_id)
      = (List.range clients.length).map gtid := by
  unfold builtReservations
  rw [List.map_map, List.enum_eq_zip_range]
  have : ((fun r : Reservation => r.ticket.ticket_id) ∘ fun ic : Nat × Client
      => Reservation.mk ic.2 (Ticket.mk (gtid ic.1) ic.2 conn))
      = fun ic : Nat × Client => gtid ic.1 := rfl
  rw [this]
  have h2 : (fun ic : Nat × Client => gtid ic.1)
      = gtid ∘ Prod.fst := rfl
  rw [h2, ← List.map_map,
    List.map_fst_zip _ _ (by rw [List.length_range])]

/-- C3 counterexample: a run in which both `generate_ticket_id` draws return
the same value (possible: equal wall-clock second and equal random
component) books successfully but yields a trip whose two ticket ids are
equal — distinctness of ticket ids is not guaranteed by the code. -/
theorem c3_ticket_ids_can_collide :
    (book_trip BookingSystem.empty (Itinerary.mk [Leg.mk r001])
        [("A", "Smith", "P1", 30), ("B", "Jones", "P2", 25)]
        "TRP-1" (fun _ => 77)).1
      = .ok (Trip.mk "TRP-1" (Itinerary.mk [Leg.mk r001])
          [Reservation.mk ⟨"A", "Smith", "P1", 30⟩
            (Ticket.mk 77 ⟨"A", "Smith", "P1", 30⟩
              (Itinerary.mk [Leg.mk r001])),
           Reservation.mk ⟨"B", "Jones", "P2", 25⟩
            (Ticket.mk 77 ⟨"B", "Jones", "P2", 25⟩
              (Itinerary.mk [Leg.mk r001]))])
    ∧ ¬ (([77, 77] : List Int).Nodup) := by decide

/-- C3 (amended) — when the travelers are individually valid, pairwise
distinct in identity, and none already booked on an equal connection, and
the drawn trip id is non-empty and the drawn ticket ids are pairwise
distinct and fresh with respect to the ledger (which the random generator
makes overwhelmingly likely but does not guarantee — see the
counterexample), `book_trip` returns a Trip with exactly one reservation
per traveler, pairwise-distinct ticket ids that are distinct from every
ticket id in the ledger, and each reservation's ticket client equal to its
reservation client. -/
theorem c3_book_trip_postconditions :
    ∀ (sys : BookingSystem) (conn : Itinerary)
      (ts : List (String × String × String × Int)) (gid : String)
      (gtid : Nat → Int),
      ts ≠ [] → (∀ t ∈ ts, travelerValid t) → travelersDistinct ts →
      (∀ t ∈ ts,
        has_booking_for_connection sys (travelerClient t) conn = false) →
      gid ≠ "" →
      (∀ i j, i < ts.length → j < ts.length → i ≠ j → gtid i ≠ gtid j) →
      (∀ i, i < ts.length → gtid i ∉ ledgerTicketIds sys) →
      ∃ trip, (book_trip sys conn ts gid gtid).1 = .ok trip
        ∧ trip.reservations.length = ts.length
        ∧ (trip.reservations.map (fun r => r.ticket.ticket_id)).Nodup
        ∧ (∀ tid ∈ trip.reservations.map (fun r => r.ticket.ticket_id),
            tid ∉ ledgerTicketIds sys)
        ∧ ∀ r ∈ trip.reservations, r.ticket.client = r.client := by
  intro sys conn ts gid gtid hne hval hdist hnob hgid hinj hfresh
  refine ⟨Trip.mk gid conn
    (builtReservations conn (ts.map travelerClient) gtid), ?_, ?_, ?_, ?_, ?_⟩
  · rw [book_trip_ok sys conn ts gid gtid hne hval hdist hnob hgid]
  · simp [builtReservations]
  · rw [builtReservations_ticket_ids]
    simp only [List.length_map]
    refine List.Nodup.map_on ?_ (List.nodup_range _)
    intro i hi j hj hij
    by_contra hne2
    exact hinj i j (List.mem_range.mp hi) (List.mem_range.mp hj) hne2 hij
  · rw [builtReservations_ticket_ids]
    simp only [List.length_map]
    intro tid htid
    obtain ⟨i, hi, rfl⟩ := List.mem_map.mp htid
    exact hfresh i (List.mem_range.mp hi)
  · intro r hr
    obtain ⟨ic, _, rfl⟩ := List.mem_map.mp hr
    rfl

/-- C3 witness: a solo booking on the fresh ledger with fresh ticket ids. -/
theorem c3_book_trip_postconditions_witness :
    ∃ trip, (book_trip BookingSystem.empty (Itinerary.mk [Leg.mk r001])
        [("Bob", "Brown", "ID999", 35)] "TRP-1" (fun i => 100 + i)).1
        = .ok trip
      ∧ trip.reservations.length = 1
      ∧ (trip.reservations.map (fun r => r.ticket.ticket_id)).Nodup
      ∧ (∀ tid ∈ trip.reservations.map (fun r => r.ticket.ticket_id),
          tid ∉ ledgerTicketIds BookingSystem.empty)
      ∧ ∀ r ∈ trip.reservations, r.ticket.client = r.client :=
  c3_book_trip_postconditions BookingSystem.empty
    (Itinerary.mk [Leg.mk r001]) [("Bob", "Brown", "ID999", 35)] "TRP-1"
    (fun i => 100 + i) (by decide) (by decide) (by decide) (by decide)
    (by decide)
    (by
      intro i j hi hj hij
      simp only [List.length_cons, List.length_nil] at hi hj
      omega)
    (by intro i _ h; simp [ledgerTicketIds, BookingSystem.empty] at h)

theorem find?_map_insert (k : String) (v : Trip) :
    ∀ ts : List (String × Trip), ts.any (fun e => e.1 == k) = true →
    ((ts.map (fun e => if e.1 == k then (k, v) else e)).find?
      (fun e => e.1 == k)) = some (k, v) := by
  intro ts
  induction ts with
  | nil => intro h; simp at h
  | cons e rest ih =>
    intro hany
    by_cases he : (e.1 == k) = true
    · simp only [List.map_cons, he, if_true]
      rw [List.find?_cons_of_pos _ (by simp)]
    · simp only [List.map_cons, he, if_false]
      rw [List.find?_cons_of_neg _ (by simp [he])]
      refine ih ?_
      rcases List.any_eq_true.mp hany with ⟨x, hx, hxx⟩
      rcases List.mem_cons.mp hx with h | h
      · subst h; exact absurd hxx (by simp [he])
      · exact List.any_eq_true.mpr ⟨x, h, hxx⟩

theorem tripsLookup_insert (ts : List (String × Trip)) (k : String)
    (v : Trip) : tripsLookup (tripsInsert ts k v) k = some v := by
  unfold tripsInsert
  by_cases hany : ts.any (fun e => e.1 == k) = true
  · rw [if_pos hany]
    unfold tripsLookup
    rw [find?_map_insert k v ts hany]
    rfl
  · rw [if_neg hany]
    unfold tripsLookup
    rw [List.find?_append,
      List.find?_eq_none.mpr (fun x hx hpx =>
        hany (List.any_eq_true.mpr ⟨x, hx, hpx⟩))]
    simp

theorem indexAdd_lookup_mem (idx : List ((String × String) × List String))
    (k : String × String) (tid : String) :
    tid ∈ indexLookup (indexAdd idx k tid) k := by
  unfold indexAdd
  by_cases hany : idx.any (fun e => e.1 == k) = true
  · rw [if_pos hany]
    unfold indexLookup
    induction idx with
    | nil => simp at hany
    | cons e rest ih =>
      by_cases he : (e.1 == k) = true
      · simp only [List.map_cons, he, if_true]
        rw [List.find?_cons_of_pos _ (by simpa using he)]
        show tid ∈ (if e.2.contains tid then e.2 else e.2 ++ [tid])
        by_cases hc : e.2.contains tid = true
        · rw [if_pos hc]
          exact List.elem_iff.mp hc
        · rw [if_neg hc]
          exact List.mem_append.mpr (Or.inr (List.mem_singleton.mpr rfl))
      · simp only [List.map_cons, he, if_false]
        rw [List.find?_cons_of_neg _ (by simp [he])]
        refine ih ?_
        rcases List.any_eq_true.mp hany with ⟨x, hx, hxx⟩
        rcases List.mem_cons.mp hx with h | h
        · subst h; exact absurd hxx (by simp [he])
        · exact List.any_eq_true.mpr ⟨x, h, hxx⟩
  · rw [if_neg hany]
    unfold indexLookup
    rw [List.find?_append,
      List.find?_eq_none.mpr (fun x hx hpx =>
        hany (List.any_eq_true.mpr ⟨x, hx, hpx⟩))]
    simp

theorem indexLookup_mem {idx : List ((String × String) × List String)}
    {k : String × String} {tid : String} (h : tid ∈ indexLookup idx k) :
    ∃ e ∈ idx, e.1 = k ∧ tid ∈ e.2 := by
  unfold indexLookup at h
  match hf : idx.find? (fun e => e.1 == k) with
  | none => rw [hf] at h; simp at h
  | some e =>
    rw [hf] at h
    simp only [Option.map_some', Option.getD_some] at h
    exact ⟨e, List.mem_of_find?_eq_some hf,
      by simpa using List.find?_some hf, h⟩

theorem has_booking_iff (sys : BookingSystem) (c : Client)
    (conn : Itinerary) (hwf : WF sys) :
    has_booking_for_connection sys c conn = true
      ↔ ∃ pr ∈ sys.trips, ∃ res ∈ pr.2.reservations,
          clientKey res.client = clientKey c
          ∧ connections_equal pr.2.connection conn = true := by
  unfold has_booking_for_connection
  constructor
  · intro h
    rcases List.any_eq_true.mp h with ⟨tid, htid, hpred⟩
    obtain ⟨e, hei, hek, hetid⟩ := indexLookup_mem htid
    obtain ⟨pr, hpr, hpid, res, hres, hkey⟩ := hwf.1 e hei tid hetid
    have hlook : tripsLookup sys.trips tid = some pr.2 := by
      rw [← hpid]; exact hwf.2.2 pr hpr
    rw [hlook] at hpred
    exact ⟨pr, hpr, res, hres, by rw [hkey, hek], hpred⟩
  · rintro ⟨pr, hpr, res, hres, hkey, hconn⟩
    refine List.any_eq_true.mpr ⟨pr.1, ?_, ?_⟩
    · have := hwf.2.1 pr hpr res hres
      rwa [hkey] at this
    · rw [hwf.2.2 pr hpr]
      exact hconn

theorem book_trip_already (sys : BookingSystem) (conn : Itinerary)
    (t : String × String × String × Int) (gid2 : String)
    (gtid2 : Nat → Int)
    (hv : travelerValid t)
    (hb : has_booking_for_connection sys (travelerClient t) conn = true) :
    (book_trip sys conn [t] gid2 gtid2).1
      = .error (.alreadyBooked (travelerClient t).first_name
          (travelerClient t).last_name) := by
  have hval1 : ∀ x ∈ [t], travelerValid x := by
    intro x hx
    rw [List.mem_singleton.mp hx]
    exact hv
  unfold book_trip
  rw [show ([t].isEmpty) = false from rfl]
  simp only [Bool.false_eq_true, if_false]
  rw [parseTravelers_ok _ [t] [] [] hval1 (by simp)
    (List.pairwise_singleton _ _)]
  dsimp only
  simp only [List.nil_append, List.map_cons, List.map_nil, List.foldl_cons,
    List.foldl_nil]
  have hpred : (fun c => has_booking_for_connection
      (BookingSystem.mk sys.trips sys.client_trips_index
        (clientsAdd sys.clients (travelerClient t)))
      c conn) (travelerClient t) = true := hb
  have hfind : List.find? (fun c => has_booking_for_connection
      (BookingSystem.mk sys.trips sys.client_trips_index
        (clientsAdd sys.clients (travelerClient t)))
      c conn) [travelerClient t] = some (travelerClient t) :=
    List.find?_cons_of_pos [] hpred
  rw [hfind]

/-- C4 — (i) booking the same valid traveler on the same connection twice
in sequence succeeds once and then fails with the already-booked error;
(ii) under the claim's preconditions on the traveler list, a booking fails
with the already-booked error exactly when some traveler in the call
already has a booking for the connection; (iii) on a well-formed ledger,
"has a booking for the connection" means exactly: some trip of the ledger
holds a reservation whose client identity (case-insensitive last name plus
exact id number) equals the traveler's and whose itinerary has an equal
ordered route-id sequence. -/
theorem c4_already_booked :
    (∀ (sys : BookingSystem) (conn : Itinerary)
        (t : String × String × String × Int) (gid1 gid2 : String)
        (gtid1 gtid2 : Nat → Int),
      travelerValid t →
      has_booking_for_connection sys (travelerClient t) conn = false →
      gid1 ≠ "" →
      (book_trip sys conn [t] gid1 gtid1).1
        = .ok (Trip.mk gid1 conn
            (builtReservations conn [travelerClient t] gtid1))
      ∧ (book_trip (book_trip sys conn [t] gid1 gtid1).2 conn [t]
            gid2 gtid2).1
        = .error (.alreadyBooked (travelerClient t).first_name
            (travelerClient t).last_name))
    ∧ (∀ (sys : BookingSystem) (conn : Itinerary)
        (ts : List (String × String × String × Int)) (gid : String)
        (gtid : Nat → Int),
      ts ≠ [] → (∀ t ∈ ts, travelerValid t) → travelersDistinct ts →
      ((∃ f l, (book_trip sys conn ts gid gtid).1
          = .error (.alreadyBooked f l))
        ↔ ∃ t ∈ ts,
            has_booking_for_connection sys (travelerClient t) conn = true))
    ∧ (∀ (sys : BookingSystem) (c : Client) (conn : Itinerary), WF sys →
      (has_booking_for_connection sys c conn = true
        ↔ ∃ pr ∈ sys.trips, ∃ res ∈ pr.2.reservations,
            clientKey res.client = clientKey c
            ∧ connections_equal pr.2.connection conn = true)) := by
  refine ⟨fun sys conn t gid1 gid2 gtid1 gtid2 hv hnob hgid => ?_,
    fun sys conn ts gid gtid hne hval hdist => ?_,
    fun sys c conn hwf => has_booking_iff sys c conn hwf⟩
  · have hval1 : ∀ x ∈ [t], travelerValid x := by
      intro x hx
      rw [List.mem_singleton.mp hx]
      exact hv
    have hnob1 : ∀ x ∈ [t],
        has_booking_for_connection sys (travelerClient x) conn = false := by
      intro x hx
      rw [List.mem_singleton.mp hx]
      exact hnob
    have h1 := book_trip_ok sys conn [t] gid1 gtid1 (by simp) hval1
      (List.pairwise_singleton _ _) hnob1 hgid
    have hb : has_booking_for_connection
        (book_trip sys conn [t] gid1 gtid1).2 (travelerClient t) conn
        = true := by
      rw [h1]
      unfold has_booking_for_connection
      dsimp only
      simp only [List.map_cons, List.map_nil, List.foldl_cons,
        List.foldl_nil]
      apply List.any_eq_true.mpr
      refine ⟨gid1, indexAdd_lookup_mem _ _ _, ?_⟩
      rw [tripsLookup_insert]
      exact connections_equal_refl conn
    exact ⟨by rw [h1]; rfl, book_trip_already _ conn t gid2 gtid2 hv hb⟩
  · unfold book_trip
    have hne' : ts.isEmpty = false := by
      cases ts with
      | nil => exact absurd rfl hne
      | cons _ _ => rfl
    rw [hne']
    simp only [Bool.false_eq_true, if_false]
    rw [parseTravelers_ok sys ts [] [] hval (by simp) hdist]
    dsimp only
    rw [List.nil_append]
    match hf : (ts.map travelerClient).find? (fun c =>
        has_booking_for_connection
          (BookingSystem.mk sys.trips sys.client_trips_index
            (ts.foldl (fun cs t => clientsAdd cs (travelerClient t))
              sys.clients)) c conn) with
    | some c =>
      constructor
      · intro _
        obtain ⟨t, ht, htc⟩ := List.mem_map.mp (List.mem_of_find?_eq_some hf)
        refine ⟨t, ht, ?_⟩
        have := List.find?_some hf
        rw [← htc] at this
        exact this
      · intro _
        exact ⟨c.first_name, c.last_name, rfl⟩
    | none =>
      have hnone : ∀ t ∈ ts,
          ¬ has_booking_for_connection sys (travelerClient t) conn
            = true := by
        intro t ht
        exact List.find?_eq_none.mp hf (travelerClient t)
          (List.mem_map_of_mem travelerClient ht)
      constructor
      · intro hex
        obtain ⟨f, l, hfl⟩ := hex
        by_cases hg : (gid == "") = true
        · rw [if_pos hg] at hfl
          simp at hfl
        · rw [if_neg hg] at hfl
          simp at hfl
      · rintro ⟨t, ht, htb⟩
        exact absurd htb (hnone t ht)

/-- C4 witness: the double-booking behaviour on the fresh ledger with the
concrete connection and traveler. -/
theorem c4_already_booked_witness :
    (book_trip BookingSystem.empty (Itinerary.mk [Leg.mk r001])
        [("Bob", "Brown", "ID999", 35)] "TRP-1" (fun i => 100 + i)).1
      = .ok (Trip.mk "TRP-1" (Itinerary.mk [Leg.mk r001])
          (builtReservations (Itinerary.mk [Leg.mk r001])
            [travelerClient ("Bob", "Brown", "ID999", 35)]
            (fun i => 100 + i)))
    ∧ (book_trip
        (book_trip BookingSystem.empty (Itinerary.mk [Leg.mk r001])
          [("Bob", "Brown", "ID999", 35)] "TRP-1" (fun i => 100 + i)).2
        (Itinerary.mk [Leg.mk r001]) [("Bob", "Brown", "ID999", 35)]
        "TRP-2" (fun i => 200 + i)).1
      = .error (.alreadyBooked "Bob" "Brown") :=
  c4_already_booked.1 BookingSystem.empty (Itinerary.mk [Leg.mk r001])
    ("Bob", "Brown", "ID999", 35) "TRP-1" "TRP-2" (fun i => 100 + i)
    (fun i => 200 + i) (by decide) (by decide) (by decide)

